import Mathlib

/-!
Verification development for the freerooom-proplist ingestion, deduplication,
image-acquisition and storage-adapter subsystem.

The definitions below are a shallow embedding of the TypeScript sources:
  * `src/lib/types.ts`               — the `Property` and `HistoryEntry` data model
  * `src/lib/db.ts`                  — `savePropertiesToDb` (dedup engine) and
                                       `getFilteredProperties` (filter engine)
  * `src/lib/database-adapter.ts`    — `FilesystemAdapter` / `InMemoryAdapter`
  * `src/app/actions.ts`             — `processScrapedData` image handling
  * `scripts/download-missing-images.ts` — batched image download queue

JavaScript machine specifics are modelled as follows: strings are Lean
`String`s, JS number fields that the extraction schema fills with integers are
`Nat`s, timestamps are epoch milliseconds as `Int` under a UTC process
time-zone, and `Promise` results of fallible downloads are `Option String`
oracles.  JS truthiness of an optional number / string field is modelled
explicitly (`0`, `""` and absence are falsy).
-/

set_option autoImplicit false

namespace Proplist

/-- Listing record, embedded field-for-field from `Property` in
`src/lib/types.ts`.  Defaults are for convenience when building concrete
test records; the TS extraction schema likewise defaults strings to `""`
and numbers to `0`. -/
structure Property where
  id : String := ""
  original_url : String := ""
  title : String := ""
  original_title : String := ""
  description : String := ""
  original_description : String := ""
  enhanced_title : String := ""
  enhanced_description : String := ""
  price : String := ""
  location : String := ""
  bedrooms : Nat := 0
  bathrooms : Nat := 0
  area : String := ""
  property_type : String := ""
  image_url : String := ""
  image_urls : List String := []
  scraped_at : String := ""
  mortgage : String := ""
  neighborhood : String := ""
  what_do : String := ""
  city : String := ""
  county : String := ""
  tenant_type : String := ""
  rental_timing : String := ""
  furnish_type : String := ""
  floor_number : Nat := 0
  features : List String := []
  terms_and_condition : String := ""
  page_link : String := ""
  matterportLink : String := ""
  validated_information : String := ""
  building_information : String := ""
  permit_number : String := ""
  ded_license_number : String := ""
  rera_registration_number : String := ""
  reference_id : String := ""
  dld_brn : String := ""
  listed_by_name : String := ""
  listed_by_phone : String := ""
  listed_by_email : String := ""
deriving DecidableEq

/-- History entry, from `HistoryEntry` in `src/lib/types.ts`.  The `type`
union `'URL' | 'HTML' | 'BULK'` is embedded as a `String`. -/
structure HistoryEntry where
  id : String := ""
  type : String := ""
  details : String := ""
  propertyCount : Nat := 0
  date : String := ""
deriving DecidableEq

/-! ## Deduplication engine (`savePropertiesToDb`, `src/lib/db.ts` lines 18-108) -/

/-- JS template literal `${p.original_url}::${p.original_title}`. -/
def originalKey (p : Property) : String :=
  p.original_url ++ "::" ++ p.original_title

/-- JS template literal
`${p.location}::${p.price}::${p.bedrooms}::${p.bathrooms}`
(numbers print the same way `toString` does for `Nat`). -/
def locationKey (p : Property) : String :=
  p.location ++ "::" ++ p.price ++ "::" ++ toString p.bedrooms ++ "::" ++ toString p.bathrooms

/-- Model of `s.substring(0, 50).toLowerCase()` on a JS string. -/
def lower50 (s : String) : String :=
  (s.take 50).map Char.toLower

/-- Fingerprint key added for a non-empty enhanced title. -/
def enhancedTitleKey (p : Property) : String :=
  "enhanced::" ++ lower50 p.enhanced_title

/-- Fingerprint key added for a non-empty original title. -/
def originalTitleKey (p : Property) : String :=
  "original::" ++ lower50 p.original_title

/-- Fingerprint key added for a non-empty reference id. -/
def refKey (p : Property) : String :=
  "ref::" ++ p.reference_id

/-- Fingerprint key added for a non-empty permit number. -/
def permitKey (p : Property) : String :=
  "permit::" ++ p.permit_number

/-- The fingerprint strings `savePropertiesToDb` inserts into `existingKeys`
for one existing record (db.ts lines 23-49).  The `if` guards model the JS
truthiness tests on the optional string fields. -/
def keysOf (p : Property) : List String :=
  [originalKey p, locationKey p]
    ++ (if p.enhanced_title ≠ "" then [enhancedTitleKey p] else [])
    ++ (if p.original_title ≠ "" then [originalTitleKey p] else [])
    ++ (if p.reference_id ≠ "" then [refKey p] else [])
    ++ (if p.permit_number ≠ "" then [permitKey p] else [])

/-- The `existingKeys` set built from the whole corpus; membership in the JS
`Set<string>` is membership in this list. -/
def existingKeys (corpus : List Property) : List String :=
  (corpus.map keysOf).flatten

/-- The duplicate test applied to one incoming candidate by the
`newProperties.filter` callback (db.ts lines 51-93).  A candidate whose
`original_url` is the sentinel `'scraped-from-html'` takes the raw-content
branch (fingerprints 2-6); any other candidate takes the URL branch
(fingerprints 1, 2, 5, 6). -/
def isDup (keys : List String) (p : Property) : Bool :=
  if p.original_url = "scraped-from-html" then
    keys.contains (locationKey p)
      || (p.enhanced_title ≠ "" && keys.contains (enhancedTitleKey p))
      || (p.original_title ≠ "" && keys.contains (originalTitleKey p))
      || (p.reference_id ≠ "" && keys.contains (refKey p))
      || (p.permit_number ≠ "" && keys.contains (permitKey p))
  else
    keys.contains (originalKey p)
      || keys.contains (locationKey p)
      || (p.reference_id ≠ "" && keys.contains (refKey p))
      || (p.permit_number ≠ "" && keys.contains (permitKey p))

/-- Observable outcome of one `savePropertiesToDb` call: the thrown
all-duplicates error, the silent early return (no write performed), or a
write of the new corpus. -/
inductive SaveResult
  | allDuplicates
  | noop
  | saved (corpus : List Property)
deriving DecidableEq

/-- The function `savePropertiesToDb` (db.ts lines 18-108): filter the batch against the
fingerprints of the existing corpus, throw when a non-empty batch is wiped
out, return silently when nothing survives otherwise, and prepend the
survivors to the corpus. -/
def savePropertiesToDb (existing newProperties : List Property) : SaveResult :=
  let keys := existingKeys existing
  let uniqueNewProperties := newProperties.filter (fun p => !(isDup keys p))
  if newProperties.length > 0 && uniqueNewProperties.length == 0 then
    .allDuplicates
  else if uniqueNewProperties.length == 0 then
    .noop
  else
    .saved (uniqueNewProperties ++ existing)

/-! ## Filter engine (`getFilteredProperties`, db.ts lines 176-230)

Timestamps are epoch milliseconds (`Int`); the process time zone is modelled
as UTC, so `Date.prototype.setHours` acts on UTC days.  `new Date(string)` on
the ISO forms the corpus uses is embedded by `parseIsoDate`; an invalid date
(`NaN`) is `none`, and JS `<`/`>` on an invalid date is always false. -/

/-- Value of a list of decimal digit characters, most significant first. -/
def digitsVal (cs : List Char) : Nat :=
  cs.foldl (fun a c => a * 10 + (c.toNat - 48)) 0

/-- Civil-calendar day count since 1970-01-01 (proleptic Gregorian),
the day arithmetic underlying ECMAScript UTC date parsing. -/
def daysFromCivil (y m d : Int) : Int :=
  let yy := y - (if m ≤ 2 then 1 else 0)
  let era := yy.fdiv 400
  let yoe := yy - era * 400
  let mp := (m + 9).emod 12
  let doy := (153 * mp + 2).fdiv 5 + d - 1
  let doe := yoe * 365 + yoe.fdiv 4 - yoe.fdiv 100 + doy
  era * 146097 + doe - 719468

/-- Epoch milliseconds of a UTC calendar instant. -/
def utcMillis (y m d h mi s ms : Int) : Int :=
  daysFromCivil y m d * 86400000 + h * 3600000 + mi * 60000 + s * 1000 + ms

/-- Numeric value of two decimal digit characters. -/
def twoVal (a b : Char) : Nat :=
  digitsVal [a, b]

/-- Numeric value of four decimal digit characters. -/
def fourVal (a b c d : Char) : Nat :=
  digitsVal [a, b, c, d]

/-- Range-check a parsed calendar instant and produce its epoch
milliseconds; out-of-range components make an ISO string an Invalid Date. -/
def mkUtc (y mo d h mi s ms : Nat) : Option Int :=
  if 1 ≤ mo ∧ mo ≤ 12 ∧ 1 ≤ d ∧ d ≤ 31 ∧ h ≤ 23 ∧ mi ≤ 59 ∧ s ≤ 59 then
    some (utcMillis y mo d h mi s ms)
  else
    none

/-- Model of `new Date(s)` for the ISO-8601 forms this corpus stores
(`YYYY-MM-DD`, `YYYY-MM-DDTHH:MM:SSZ`, `YYYY-MM-DDTHH:MM:SS.sssZ`),
all interpreted as UTC by ECMAScript; anything else is an Invalid Date. -/
def parseIsoDate (str : String) : Option Int :=
  match str.data with
  | [y1, y2, y3, y4, '-', a1, a2, '-', d1, d2] =>
      if [y1, y2, y3, y4, a1, a2, d1, d2].all Char.isDigit then
        mkUtc (fourVal y1 y2 y3 y4) (twoVal a1 a2) (twoVal d1 d2) 0 0 0 0
      else none
  | [y1, y2, y3, y4, '-', a1, a2, '-', d1, d2, 'T', h1, h2, ':', i1, i2, ':', s1, s2, 'Z'] =>
      if [y1, y2, y3, y4, a1, a2, d1, d2, h1, h2, i1, i2, s1, s2].all Char.isDigit then
        mkUtc (fourVal y1 y2 y3 y4) (twoVal a1 a2) (twoVal d1 d2)
          (twoVal h1 h2) (twoVal i1 i2) (twoVal s1 s2) 0
      else none
  | [y1, y2, y3, y4, '-', a1, a2, '-', d1, d2, 'T', h1, h2, ':', i1, i2, ':', s1, s2,
     '.', f1, f2, f3, 'Z'] =>
      if [y1, y2, y3, y4, a1, a2, d1, d2, h1, h2, i1, i2, s1, s2, f1, f2, f3].all Char.isDigit then
        match mkUtc (fourVal y1 y2 y3 y4) (twoVal a1 a2) (twoVal d1 d2)
            (twoVal h1 h2) (twoVal i1 i2) (twoVal s1 s2) 0 with
        | some base => some (base + digitsVal [f1, f2, f3])
        | none => none
      else none
  | _ => none

/-- Model of `endDate.setHours(23, 59, 59, 999)` under the UTC time-zone model:
move the timestamp to 23:59:59.999 of its own civil day. -/
def setHoursEndOfDay (ms : Int) : Int :=
  ms.fdiv 86400000 * 86400000 + 86399999

/-- JS truthiness of an optional string field (`undefined` and `""` falsy). -/
def truthyStr : Option String → Bool
  | some s => s ≠ ""
  | none => false

/-- JS truthiness of an optional number field (`undefined` and `0` falsy). -/
def truthyNum : Option Nat → Bool
  | some n => n ≠ 0
  | none => false

/-- Shape of the filter object (`ExportFilter` in db.ts lines 167-174). -/
structure ExportFilter where
  startDate : Option String := none
  endDate : Option String := none
  propertyType : Option String := none
  location : Option String := none
  minPrice : Option Nat := none
  maxPrice : Option Nat := none

/-- JS `<` on two `Date`s: false whenever either is invalid. -/
def dateLt : Option Int → Option Int → Bool
  | some a, some b => a < b
  | _, _ => false

/-- JS `>` on two `Date`s: false whenever either is invalid. -/
def dateGt : Option Int → Option Int → Bool
  | some a, some b => a > b
  | _, _ => false

/-- db.ts lines 185-189: reject when a start date is supplied and the scrape
timestamp is strictly before it. -/
def startDateCheck (f : ExportFilter) (p : Property) : Bool :=
  !(truthyStr f.startDate &&
    dateLt (parseIsoDate p.scraped_at) (parseIsoDate (f.startDate.getD "")))

/-- db.ts lines 191-197: reject when an end date is supplied and the scrape
timestamp is strictly after that day's 23:59:59.999. -/
def endDateCheck (f : ExportFilter) (p : Property) : Bool :=
  !(truthyStr f.endDate &&
    dateGt (parseIsoDate p.scraped_at)
      ((parseIsoDate (f.endDate.getD "")).map setHoursEndOfDay))

/-- Model of `s.toLowerCase()`. -/
def toLowerStr (s : String) : String :=
  s.map Char.toLower

/-- db.ts lines 200-202: exact case-insensitive property-type match. -/
def propertyTypeCheck (f : ExportFilter) (p : Property) : Bool :=
  !(truthyStr f.propertyType &&
    toLowerStr p.property_type != toLowerStr (f.propertyType.getD ""))

/-- Whether `hay` starts with `needle`. -/
def startsWithChars : List Char → List Char → Bool
  | _, [] => true
  | [], _ :: _ => false
  | a :: as, b :: bs => a == b && startsWithChars as bs

/-- Whether `needle` occurs somewhere in the second list. -/
def containsChars (needle : List Char) : List Char → Bool
  | [] => needle.isEmpty
  | c :: t => startsWithChars (c :: t) needle || containsChars needle t

/-- JS `s.includes(sub)`. -/
def includesStr (s sub : String) : Bool :=
  containsChars sub.data s.data

/-- db.ts lines 205-213: case-insensitive substring match against any of
location, city, county, neighborhood. -/
def locationCheck (f : ExportFilter) (p : Property) : Bool :=
  !(truthyStr f.location &&
    !(let searchLocation := toLowerStr (f.location.getD "")
      includesStr (toLowerStr p.location) searchLocation
        || includesStr (toLowerStr p.city) searchLocation
        || includesStr (toLowerStr p.county) searchLocation
        || includesStr (toLowerStr p.neighborhood) searchLocation))

/-- Digit-or-comma character class of the regex `/[\d,]+/`. -/
def isPriceChar (c : Char) : Bool :=
  c.isDigit || c == ','

/-- Longest prefix of digit/comma characters. -/
def takePriceRun : List Char → List Char
  | [] => []
  | c :: t => if isPriceChar c then c :: takePriceRun t else []

/-- Model of the match `price.match` against the digits/commas regex: the first maximal run of digits and commas. -/
def firstPriceRun : List Char → Option (List Char)
  | [] => none
  | c :: t => if isPriceChar c then some (c :: takePriceRun t) else firstPriceRun t

/-- Model of `parseInt` applied to the comma-stripped match: strip the commas from the first
run and read the remaining digits; `none` is `NaN` (no run, or a run of
commas only). -/
def parsedPrice (price : String) : Option Nat :=
  match firstPriceRun price.data with
  | none => none
  | some run =>
      let ds := run.filter (fun c => c != ',')
      if ds.isEmpty then none else some (digitsVal ds)

/-- db.ts lines 215-224: the price predicate.  The outer test and the two
bound tests use JS truthiness, and comparisons against `NaN` are false. -/
def priceCheck (minPrice maxPrice : Option Nat) (price : String) : Bool :=
  if truthyNum minPrice || truthyNum maxPrice then
    match parsedPrice price with
    | none => true
    | some v =>
        if truthyNum minPrice && decide (v < minPrice.getD 0) then false
        else if truthyNum maxPrice && decide (v > maxPrice.getD 0) then false
        else true
  else true

/-- The record predicate of `getFilteredProperties` (db.ts lines 183-227);
the sequential early `return false`s become one conjunction. -/
def matchesFilter (f : ExportFilter) (p : Property) : Bool :=
  startDateCheck f p && endDateCheck f p && propertyTypeCheck f p
    && locationCheck f p && priceCheck f.minPrice f.maxPrice p.price

/-- The function `getFilteredProperties` (db.ts lines 176-230) over a corpus snapshot. -/
def getFilteredProperties (properties : List Property) (filter : Option ExportFilter) :
    List Property :=
  match filter with
  | none => properties
  | some f => properties.filter (matchesFilter f)

/-! ## Storage adapters (`src/lib/database-adapter.ts`)

Both backends are embedded as pure transformers of an `AdapterState`; the
durable backend's two JSON documents and the in-memory backend's two arrays
are the same observable state.  Generated ids and timestamps
(`Date.now()`, `Math.random()`) are passed in as parameters. -/

/-- Record corpus plus history log, the observable storage state. -/
structure AdapterState where
  properties : List Property := []
  history : List HistoryEntry := []
deriving DecidableEq

/-- Both backends start from no stored data. -/
def emptyState : AdapterState := {}

/-- Model of `FilesystemAdapter.getAllProperties` (also the in-memory snapshot). -/
def getAllProperties (s : AdapterState) : List Property :=
  s.properties

/-- Model of `saveProperties`: both backends replace the whole corpus. -/
def saveProperties (s : AdapterState) (properties : List Property) : AdapterState :=
  { s with properties := properties }

/-- Model of `FilesystemAdapter.updateProperty` (adapter lines 419-428): replace the
matching record, or throw when the id is absent. -/
def fsUpdateProperty (s : AdapterState) (property : Property) : Except String AdapterState :=
  match s.properties.findIdx? (fun p => p.id == property.id) with
  | some index => .ok { s with properties := s.properties.set index property }
  | none => .error ("Property with id " ++ property.id ++ " not found")

/-- Model of `InMemoryAdapter.updateProperty` (adapter lines 553-562): replace the
matching record, or `push` the record when the id is absent. -/
def memUpdateProperty (s : AdapterState) (property : Property) : Except String AdapterState :=
  match s.properties.findIdx? (fun p => p.id == property.id) with
  | some index => .ok { s with properties := s.properties.set index property }
  | none => .ok { s with properties := s.properties ++ [property] }

/-- Model of `deleteProperty`: both backends filter the id out, tolerating absence. -/
def deleteProperty (s : AdapterState) (propertyId : String) : AdapterState :=
  { s with properties := s.properties.filter (fun p => p.id != propertyId) }

/-- Model of `bulkDeleteProperties`: both backends filter out the id set and report
`deletedCount`/`notFoundCount`. -/
def bulkDeleteProperties (s : AdapterState) (propertyIds : List String) :
    (Nat × Nat) × AdapterState :=
  let filtered := s.properties.filter (fun p => !(propertyIds.contains p.id))
  let deletedCount := s.properties.length - filtered.length
  ((deletedCount, propertyIds.length - deletedCount), { s with properties := filtered })

/-- Model of `saveHistoryEntry` in both adapters (adapter lines 461-476 and 588-597):
`history.push(newEntry)` with a generated id and date, and no retention
bound. -/
def adapterSaveHistoryEntry (s : AdapterState) (type details : String) (propertyCount : Nat)
    (newId newDate : String) : AdapterState :=
  { s with history := s.history ++
      [{ id := newId, type := type, details := details,
         propertyCount := propertyCount, date := newDate }] }

/-- Model of `clearHistory`: both backends write an empty history document. -/
def clearHistory (s : AdapterState) : AdapterState :=
  { s with history := [] }

/-- Model of `FilesystemAdapter.clearAllData` (adapter lines 487-494): clear the
corpus, then append a `BULK` history entry reading `All data cleared`. -/
def fsClearAllData (s : AdapterState) (newId newDate : String) : AdapterState :=
  adapterSaveHistoryEntry { s with properties := [] } "BULK" "All data cleared" 0 newId newDate

/-- Model of `InMemoryAdapter.clearAllData` (adapter lines 605-610): clear both the
corpus and the history. -/
def memClearAllData (s : AdapterState) : AdapterState :=
  { s with properties := [], history := [] }

/-- Model of `getStats` in both adapters. -/
def getStats (s : AdapterState) : Nat × Nat :=
  (s.properties.length, s.history.length)

/-- The legacy file-level `saveHistoryEntry` (the direct-fs db module,
lines 198-208): `history.unshift(newEntry)` then
`writeJsonFile(historyPath, history.slice(0, 50))`, keeping the newest 50. -/
def legacySaveHistoryEntry (history : List HistoryEntry) (entry : HistoryEntry) :
    List HistoryEntry :=
  (entry :: history).take 50

/-! ## Image acquisition -/

/-- The sentinel placeholder image reference. -/
def placeholderUrl : String := "https://placehold.co/600x400.png"

/-- The two image fields a processed record receives. -/
structure ProcessedImages where
  image_urls : List String
  image_url : String
deriving DecidableEq

/-- Image fields computed by `processScrapedData` (actions.ts lines 90-107):
every URL's download promise is launched, the settled results are filtered
for successes, and the placeholder is substituted only into the scalar
`image_url` field.  `dl` is the download oracle; `none` is a failed (null)
download. -/
def processImages (dl : String → Option String) (imageUrls : List String) : ProcessedImages :=
  let downloadedUrls := (imageUrls.map dl).filterMap id
  { image_urls := downloadedUrls,
    image_url := match downloadedUrls with
      | [] => placeholderUrl
      | u :: _ => u }

/-- Image fields computed by the older `processAndSaveHistory` orchestration
variant (actions bundle lines 280-313): a failed download falls back to its
original absolute URL, and the placeholder is pushed when the resulting list
is empty. -/
def processImagesLegacy (dl : String → Option String) (absoluteImageUrls : List String) :
    ProcessedImages :=
  let finalImageUrls := absoluteImageUrls.map (fun u => (dl u).getD u)
  let finalImageUrls := if finalImageUrls.isEmpty then [placeholderUrl] else finalImageUrls
  { image_urls := finalImageUrls,
    image_url := match finalImageUrls with
      | [] => placeholderUrl
      | u :: _ => if u = "" then placeholderUrl else u }

/-- The constant `MAX_CONCURRENT` in `scripts/download-missing-images.ts`. -/
def maxConcurrent : Nat := 5

/-- The batching loop of `downloadMissingImages` (script lines 149-173):
`for (let i = 0; i < queue.length; i += MAX_CONCURRENT)` taking
`queue.slice(i, i + MAX_CONCURRENT)` each pass; each batch is fully awaited
(`Promise.all`) before the next slice is taken. -/
def chunkQueueAux {α : Type} : Nat → List α → List (List α)
  | _, [] => []
  | 0, _ :: _ => []
  | fuel + 1, x :: xs =>
      ((x :: xs).take maxConcurrent) :: chunkQueueAux fuel ((x :: xs).drop maxConcurrent)

/-- The batch list for a whole queue; `queue.length` steps of the loop always
suffice since every pass consumes at least one element. -/
def chunkQueue {α : Type} (queue : List α) : List (List α) :=
  chunkQueueAux queue.length queue

/-- The download launches of `processScrapedData` (actions.ts lines 90-91):
`imageUrls.map(downloadImage)` then a single `await Promise.all`, i.e. one
concurrent batch holding every URL. -/
def ingestionBatches {α : Type} (imageUrls : List α) : List (List α) :=
  [imageUrls]

/-- Largest number of downloads in flight at one instant: the largest batch
size, since every batch is fully settled before the next is launched. -/
def maxInFlight {α : Type} (batches : List (List α)) : Nat :=
  (batches.map List.length).foldr Nat.max 0

/-! ## Concrete records used to instantiate the theorems -/

/-- An existing corpus record with a fully populated fingerprint tuple. -/
def corpusRecA : Property :=
  { id := "a1", original_url := "https://ex.com/1", original_title := "Nice flat",
    location := "Marina", price := "50,000 AED", bedrooms := 2, bathrooms := 2 }

/-- A raw-content candidate sharing `corpusRecA`'s tuple, different title. -/
def candidateHtml : Property :=
  { id := "b1", original_url := "scraped-from-html",
    original_title := "Totally different title",
    location := "Marina", price := "50,000 AED", bedrooms := 2, bathrooms := 2 }

/-- A URL-scrape candidate sharing `corpusRecA`'s tuple, different title/URL. -/
def candidateUrl : Property :=
  { id := "b2", original_url := "https://other.com/2",
    original_title := "Another title",
    location := "Marina", price := "50,000 AED", bedrooms := 2, bathrooms := 2 }

/-- A record whose id is absent from the empty corpus. -/
def freshProp : Property := { id := "p1" }

/-- A candidate sharing no fingerprint with `corpusRecA`: different URL,
titles and location/price/bed/bath tuple. -/
def freshListing : Property :=
  { id := "c9", original_url := "https://new.com/9",
    original_title := "Brand new listing",
    location := "Downtown", price := "80,000 AED", bedrooms := 3, bathrooms := 3 }

/-- A sample history entry. -/
def histSample : HistoryEntry :=
  { id := "h0", type := "URL", details := "d", propertyCount := 1, date := "2024-01-01" }

/-- A record scraped late on 2024-01-05 (UTC). -/
def sampleScrapedProp : Property :=
  { id := "s1", scraped_at := "2024-01-05T23:59:00Z" }

/-- Twenty-three candidate image URLs, the count used by the spec scenario. -/
def urls23 : List String := List.replicate 23 "http://example.com/img.jpg"

/-! ## Helper lemmas -/

theorem contains_of_mem {l : List String} {a : String} (h : a ∈ l) :
    l.contains a = true :=
  List.elem_iff.mpr h

theorem locationKey_mem_keysOf (p : Property) : locationKey p ∈ keysOf p := by
  simp [keysOf]

theorem mem_existingKeys {corpus : List Property} {p : Property} (hp : p ∈ corpus)
    {k : String} (hk : k ∈ keysOf p) : k ∈ existingKeys corpus := by
  unfold existingKeys
  rw [List.mem_flatten]
  exact ⟨keysOf p, List.mem_map_of_mem _ hp, hk⟩

/-- Both branches of `isDup` test the location/price/bed/bath fingerprint,
so membership of that key alone forces a duplicate verdict. -/
theorem isDup_of_locationKey {keys : List String} {p : Property}
    (h : locationKey p ∈ keys) : isDup keys p = true := by
  unfold isDup
  split <;> simp [h]

/-- A record already present in the corpus is always classified duplicate. -/
theorem isDup_self {corpus : List Property} {c : Property} (h : c ∈ corpus) :
    isDup (existingKeys corpus) c = true :=
  isDup_of_locationKey (mem_existingKeys h (locationKey_mem_keysOf c))

/-! ## Claim theorems -/

/-- Claim C6: a candidate whose `(location, price, bedrooms, bathrooms)`
tuple exactly equals that of any existing corpus record is classified as a
duplicate by `savePropertiesToDb`'s filter, regardless of its titles and on
both the raw-content branch and the URL branch. -/
theorem fingerprint_tuple_duplicate (corpus : List Property) (p c : Property)
    (hp : p ∈ corpus) (hloc : c.location = p.location) (hprice : c.price = p.price)
    (hbed : c.bedrooms = p.bedrooms) (hbath : c.bathrooms = p.bathrooms) :
    isDup (existingKeys corpus) c = true := by
  have hkey : locationKey c = locationKey p := by
    unfold locationKey
    rw [hloc, hprice, hbed, hbath]
  exact isDup_of_locationKey (hkey ▸ mem_existingKeys hp (locationKey_mem_keysOf p))

theorem fingerprint_tuple_duplicate_witness :
    isDup (existingKeys [corpusRecA]) candidateHtml = true
    ∧ isDup (existingKeys [corpusRecA]) candidateUrl = true :=
  ⟨fingerprint_tuple_duplicate [corpusRecA] corpusRecA candidateHtml
      (List.mem_singleton.mpr rfl) rfl rfl rfl rfl,
   fingerprint_tuple_duplicate [corpusRecA] corpusRecA candidateUrl
      (List.mem_singleton.mpr rfl) rfl rfl rfl rfl⟩

/-- Claim C3: `savePropertiesToDb` raises the all-duplicates error exactly
when the batch is non-empty and every candidate is classified duplicate; an
empty batch is a silent no-op with no write performed. -/
theorem save_error_iff_all_duplicates (existing newProperties : List Property) :
    (savePropertiesToDb existing newProperties = .allDuplicates ↔
      (newProperties ≠ [] ∧ ∀ p ∈ newProperties, isDup (existingKeys existing) p = true))
    ∧ (newProperties = [] → savePropertiesToDb existing newProperties = .noop) := by
  constructor
  · by_cases hnil : newProperties = []
    · subst hnil
      simp [savePropertiesToDb]
    · have hlen : 0 < newProperties.length := List.length_pos.mpr hnil
      by_cases hfil :
          newProperties.filter (fun p => !(isDup (existingKeys existing) p)) = []
      · constructor
        · intro _
          refine ⟨hnil, fun p hp => ?_⟩
          have := List.filter_eq_nil_iff.mp hfil p hp
          simpa using this
        · intro _
          simp [savePropertiesToDb, hfil, hlen]
      · constructor
        · intro hres
          exfalso
          rcases List.exists_mem_of_ne_nil _ hfil with ⟨a, ha⟩
          have hlenf : (newProperties.filter
              (fun p => !(isDup (existingKeys existing) p))).length ≠ 0 := by
            simpa [List.length_eq_zero] using hfil
          simp [savePropertiesToDb, hlenf] at hres
        · intro hres
          exfalso
          rcases hres with ⟨-, hall⟩
          rcases List.exists_mem_of_ne_nil _ hfil with ⟨a, ha⟩
          rcases List.mem_filter.mp ha with ⟨hmem, hpred⟩
          have := hall a hmem
          simp [this] at hpred
  · intro hnil
    subst hnil
    simp [savePropertiesToDb]

theorem save_error_iff_all_duplicates_witness :
    savePropertiesToDb [corpusRecA] [corpusRecA] = .allDuplicates
    ∧ savePropertiesToDb [corpusRecA] ([] : List Property) = .noop :=
  ⟨(save_error_iff_all_duplicates [corpusRecA] [corpusRecA]).1.mpr
      ⟨by decide, by decide⟩,
   (save_error_iff_all_duplicates [corpusRecA] []).2 rfl⟩

/-- Claim C2 counterexample: the dedup filter compares candidates only
against the pre-existing corpus, so a candidate repeated inside one batch is
stored twice — the corpus ends with two copies, not at most one. -/
theorem intra_batch_duplicate_stored :
    savePropertiesToDb [] [candidateHtml, candidateHtml] =
      .saved [candidateHtml, candidateHtml]
    ∧ [candidateHtml, candidateHtml].count candidateHtml = 2 := by
  constructor
  · decide
  · decide

/-- Claim C2 (amended): re-ingesting an already accepted record as a batch of
one raises the all-duplicates error (leaving the corpus unchanged, hence
still holding its single copy); inside a larger batch that also carries a
fresh candidate, the corpus-duplicate is silently skipped — the call succeeds
and stores only the fresh candidate; but within a single batch candidates are
filtered only against the pre-existing corpus, so a fresh candidate occurring
twice in one batch is stored twice. -/
theorem ingest_idempotence_amended (corpus : List Property) (c : Property) :
    (c ∈ corpus → savePropertiesToDb corpus [c] = .allDuplicates)
    ∧ (c ∈ corpus → ∀ fresh : Property, isDup (existingKeys corpus) fresh = false →
        savePropertiesToDb corpus [c, fresh] = .saved (fresh :: corpus))
    ∧ (isDup (existingKeys corpus) c = false →
        savePropertiesToDb corpus [c, c] = .saved (c :: c :: corpus)) := by
  refine ⟨?_, ?_, ?_⟩
  · intro h
    have hdup := isDup_self h
    simp [savePropertiesToDb, hdup]
  · intro h fresh hfresh
    have hdup := isDup_self h
    simp [savePropertiesToDb, hdup, hfresh]
  · intro h
    simp [savePropertiesToDb, h]

theorem ingest_idempotence_amended_witness :
    savePropertiesToDb [corpusRecA] [corpusRecA] = .allDuplicates
    ∧ savePropertiesToDb [corpusRecA] [corpusRecA, freshListing] =
        .saved (freshListing :: [corpusRecA])
    ∧ savePropertiesToDb [] [candidateHtml, candidateHtml] =
        .saved (candidateHtml :: candidateHtml :: []) :=
  ⟨(ingest_idempotence_amended [corpusRecA] corpusRecA).1 (List.mem_singleton.mpr rfl),
   (ingest_idempotence_amended [corpusRecA] corpusRecA).2.1 (List.mem_singleton.mpr rfl)
     freshListing (by decide),
   (ingest_idempotence_amended [] candidateHtml).2.2 (by decide)⟩

/-- Claim C1: the two backends are NOT observationally equivalent.  From the
empty state, `updateProperty` on a record whose id is absent throws in the
filesystem backend but silently inserts the record in the in-memory backend;
and `clearAllData` leaves a one-entry history in the filesystem backend but
an empty history in the in-memory backend. -/
theorem adapters_diverge :
    fsUpdateProperty emptyState freshProp = .error ("Property with id p1 not found")
    ∧ memUpdateProperty emptyState freshProp =
        .ok { properties := [freshProp], history := [] }
    ∧ (fsClearAllData emptyState ("hist-1") ("2024-01-01T00:00:00.000Z")).history ≠
        (memClearAllData emptyState).history
    ∧ (getStats (fsClearAllData emptyState ("hist-1") ("2024-01-01T00:00:00.000Z"))).2 = 1
    ∧ (getStats (memClearAllData emptyState)).2 = 0 := by
  refine ⟨rfl, rfl, ?_, rfl, rfl⟩
  decide

/-- Claim C7 counterexample: the adapter-level `saveHistoryEntry` used by
both backends pushes without any retention bound, so a 51st entry is kept. -/
theorem history_unbounded_in_adapters :
    ((adapterSaveHistoryEntry ⟨[], List.replicate 50 histSample⟩
        "URL" "details" 1 "h51" "2024-01-02").history).length = 51
    ∧ ¬ ((adapterSaveHistoryEntry ⟨[], List.replicate 50 histSample⟩
        "URL" "details" 1 "h51" "2024-01-02").history).length ≤ 50 := by
  constructor
  · decide
  · decide

/-- Claim C7 (amended): the retention bound holds for the legacy file-level
`saveHistoryEntry`: it keeps at most 50 entries, the new entry is present (at
the newest-first head), and overflow drops the tail `history.drop 49` — the
oldest entries; the adapter-level `saveHistoryEntry` appends unboundedly. -/
theorem legacy_history_bound (history : List HistoryEntry) (entry : HistoryEntry) :
    (legacySaveHistoryEntry history entry).length ≤ 50
    ∧ entry ∈ legacySaveHistoryEntry history entry
    ∧ legacySaveHistoryEntry history entry = entry :: history.take 49 := by
  refine ⟨?_, ?_, rfl⟩
  · simp [legacySaveHistoryEntry]
  · simp [legacySaveHistoryEntry]

/-- Claim C4 counterexample: when every download of a record's candidate
image URLs fails, `processScrapedData` leaves the `image_urls` list empty —
it does not contain the sentinel placeholder. -/
theorem image_list_left_empty :
    (processImages (fun _ => none) ["http://x/a.jpg"]).image_urls = []
    ∧ (processImages (fun _ => none) ["http://x/a.jpg"]).image_urls ≠ [placeholderUrl] := by
  constructor
  · rfl
  · decide

/-- Claim C4 (amended): when zero downloads succeed, `processScrapedData`
substitutes the sentinel only into the scalar primary `image_url` field and
leaves the `image_urls` list empty; the exactly-one-sentinel list shape holds
in the older `processAndSaveHistory` variant (given zero candidate URLs). -/
theorem image_placeholder_amended (dl : String → Option String)
    (imageUrls : List String) (hfail : ∀ u ∈ imageUrls, dl u = none) :
    (processImages dl imageUrls).image_urls = []
    ∧ (processImages dl imageUrls).image_url = placeholderUrl
    ∧ (processImagesLegacy dl []).image_urls = [placeholderUrl] := by
  have hnil : (imageUrls.map dl).filterMap id = [] := by
    rw [List.filterMap_eq_nil_iff]
    intro a ha
    rcases List.mem_map.mp ha with ⟨u, hu, rfl⟩
    simpa using hfail u hu
  refine ⟨?_, ?_, rfl⟩
  · simp [processImages, hnil]
  · simp [processImages, hnil]

theorem image_placeholder_amended_witness :
    (processImages (fun _ => none) ["http://x/a.jpg", "http://x/b.jpg"]).image_urls = []
    ∧ (processImages (fun _ => none) ["http://x/a.jpg", "http://x/b.jpg"]).image_url =
        placeholderUrl
    ∧ (processImagesLegacy (fun _ => none) []).image_urls = [placeholderUrl] :=
  image_placeholder_amended (fun _ => none) ["http://x/a.jpg", "http://x/b.jpg"]
    (fun _ _ => rfl)

/-- Claim C5 counterexample: `processScrapedData` launches all of a record's
image downloads in one `Promise.all` batch, so with 23 candidate URLs 23
downloads are in flight at once — the cap of 5 is not enforced on the
ingestion path. -/
theorem ingestion_exceeds_cap :
    maxInFlight (ingestionBatches urls23) = 23
    ∧ ¬ maxInFlight (ingestionBatches urls23) ≤ maxConcurrent := by
  constructor
  · decide
  · decide

theorem chunkQueueAux_spec {α : Type} :
    ∀ (fuel : Nat) (q : List α), q.length ≤ fuel →
      (∀ b ∈ chunkQueueAux fuel q, b.length ≤ maxConcurrent)
      ∧ (chunkQueueAux fuel q).flatten = q := by
  intro fuel
  induction fuel with
  | zero =>
      intro q hq
      cases q with
      | nil => simp [chunkQueueAux]
      | cons x xs => simp at hq
  | succ n ih =>
      intro q hq
      cases q with
      | nil => simp [chunkQueueAux]
      | cons x xs =>
          have hdrop : ((x :: xs).drop maxConcurrent).length ≤ n := by
            simp [maxConcurrent] at hq ⊢
            omega
          obtain ⟨ihb, ihf⟩ := ih _ hdrop
          constructor
          · intro b hb
            simp only [chunkQueueAux, List.mem_cons] at hb
            rcases hb with rfl | hb
            · simp [maxConcurrent]
            · exact ihb b hb
          · simp [chunkQueueAux, ihf]

theorem foldr_max_le {l : List Nat} {k : Nat} (h : ∀ n ∈ l, n ≤ k) :
    l.foldr Nat.max 0 ≤ k := by
  induction l with
  | nil => simp
  | cons a t ih =>
      simp only [List.foldr_cons, Nat.max_le]
      exact ⟨h a (List.mem_cons_self a t), ih fun n hn => h n (List.mem_cons_of_mem a hn)⟩

/-- Claim C5 (amended): the standalone download script's queue is split into
strictly sequential batches of at most `MAX_CONCURRENT = 5` downloads, the
batches concatenate back to the whole queue in order, and the in-flight count
never exceeds the cap; the ingestion orchestrator's `processScrapedData`, by
contrast, launches every download of a record at once (see the
counterexample). -/
theorem script_batches_bounded (queue : List String) :
    (∀ b ∈ chunkQueue queue, b.length ≤ maxConcurrent)
    ∧ (chunkQueue queue).flatten = queue
    ∧ maxInFlight (chunkQueue queue) ≤ maxConcurrent := by
  obtain ⟨hb, hf⟩ := chunkQueueAux_spec queue.length queue le_rfl
  refine ⟨hb, hf, ?_⟩
  unfold maxInFlight
  refine foldr_max_le ?_
  intro n hn
  rcases List.mem_map.mp hn with ⟨b, hbmem, rfl⟩
  exact hb b hbmem

theorem script_batches_bounded_witness :
    ((∀ b ∈ chunkQueue urls23, b.length ≤ maxConcurrent)
      ∧ (chunkQueue urls23).flatten = urls23
      ∧ maxInFlight (chunkQueue urls23) ≤ maxConcurrent)
    ∧ (chunkQueue urls23).map List.length = [5, 5, 5, 5, 3] :=
  ⟨script_batches_bounded urls23, by decide⟩

/-- Claim C8: with an end-date filter, `getFilteredProperties` moves the
bound to 23:59:59.999 of the end day, so every record whose scrape timestamp
falls anywhere within that civil day passes the date predicate and stays in
the filtered output. -/
theorem end_date_inclusive (properties : List Property) (p : Property) (ed : String)
    (edMs ts : Int)
    (hed : parseIsoDate ed = some edMs)
    (hts : parseIsoDate p.scraped_at = some ts)
    (hday : ts.fdiv 86400000 = edMs.fdiv 86400000)
    (hmem : p ∈ properties) :
    matchesFilter { endDate := some ed } p = true
    ∧ p ∈ getFilteredProperties properties (some { endDate := some ed }) := by
  have hne : ed ≠ "" := by
    intro h
    rw [h] at hed
    simp [parseIsoDate] at hed
  have hbound : ¬ ts > setHoursEndOfDay edMs := by
    unfold setHoursEndOfDay
    rw [← hday]
    have h1 : ts.fdiv 86400000 = ts / 86400000 := Int.fdiv_eq_ediv ts (by norm_num)
    have h2 := Int.ediv_add_emod ts 86400000
    have h3 := Int.emod_nonneg ts (by norm_num : (86400000 : Int) ≠ 0)
    have h4 := Int.emod_lt_of_pos ts (by norm_num : (0 : Int) < 86400000)
    rw [h1]
    omega
  have hmatch : matchesFilter { endDate := some ed } p = true := by
    simp [matchesFilter, startDateCheck, endDateCheck, propertyTypeCheck,
      locationCheck, priceCheck, truthyStr, truthyNum, hne, hed, hts, dateGt, hbound]
  refine ⟨hmatch, ?_⟩
  exact List.mem_filter.mpr ⟨hmem, hmatch⟩

theorem end_date_inclusive_witness :
    matchesFilter { endDate := some ("2024-01-05") } sampleScrapedProp = true
    ∧ sampleScrapedProp ∈ getFilteredProperties [sampleScrapedProp]
        (some { endDate := some ("2024-01-05") }) :=
  end_date_inclusive [sampleScrapedProp] sampleScrapedProp ("2024-01-05")
    1704412800000 1704499140000 (by decide) (by decide) (by decide)
    (List.mem_singleton.mpr rfl)

/-- Claim C9: the price predicate parses the first run of digits/commas of
the free-text price as an integer and compares it with the truthy bounds; a
record with no parseable digits is never rejected by the price predicate (it
is exempted from the min/max comparisons), and with no bounds supplied the
predicate rejects nothing. -/
theorem price_filter_spec (minPrice maxPrice : Option Nat) (price : String) :
    (parsedPrice price = none → priceCheck minPrice maxPrice price = true)
    ∧ priceCheck none none price = true
    ∧ (∀ v, parsedPrice price = some v → truthyNum minPrice = true →
        truthyNum maxPrice = true →
        (priceCheck minPrice maxPrice price = true ↔
          minPrice.getD 0 ≤ v ∧ v ≤ maxPrice.getD 0)) := by
  refine ⟨?_, rfl, ?_⟩
  · intro h
    unfold priceCheck
    split
    · rw [h]
    · rfl
  · intro v hv hmin hmax
    unfold priceCheck
    rw [hv, hmin, hmax]
    simp only [Bool.true_or, if_true]
    split_ifs with h1 h2 <;> simp_all

theorem price_filter_spec_witness :
    priceCheck (some 100) (some 200) "N/A" = true
    ∧ (priceCheck (some 100000) (some 200000) "AED 150,000 per year" = true ↔
        ((some 100000).getD 0 ≤ 150000 ∧ 150000 ≤ (some 200000).getD 0)) :=
  ⟨(price_filter_spec (some 100) (some 200) "N/A").1 (by decide),
   (price_filter_spec (some 100000) (some 200000) "AED 150,000 per year").2.2
     150000 (by decide) rfl rfl⟩

/-- Claim C10: a supplied bound equal to `0` is falsy, so it is treated as if
it were absent: with `minPrice = 0` (and `maxPrice` unset) or with
`maxPrice = 0` alone, the price predicate rejects nothing and the filtered
output is the whole corpus. -/
theorem zero_bound_ignored (minPrice : Option Nat) (price : String)
    (properties : List Property) :
    priceCheck (some 0) none price = true
    ∧ priceCheck minPrice (some 0) price = priceCheck minPrice none price
    ∧ getFilteredProperties properties (some { minPrice := some 0 }) = properties
    ∧ getFilteredProperties properties (some { maxPrice := some 0 }) = properties := by
  refine ⟨rfl, rfl, ?_, ?_⟩
  · exact List.filter_eq_self.mpr fun a _ => rfl
  · exact List.filter_eq_self.mpr fun a _ => rfl

end Proplist
